import Mathlib

/-!
Shallow embedding of the grounded-retrieval pipeline of the daemonIQ-rag
service: the query-grounding client (`app/grounding.py`), the filter builder
and overlap reranker (`app/services/retrieval.py`), and the grounded-retrieval
orchestrator (`grounded_retrieve`).  Python floats are idealised as rationals;
the external vector store is modelled through its documented contract
(a similarity ranking of the stored points, truncated at the requested limit).
-/

namespace GroundedRag

/-- The compact grounding payload produced by `ground_text` / `ground_query`
(`app/grounding.py`, keys `equip`, `brick_equip`, `ptags`, `raw`, `gconf`),
in its well-typed form as consumed by the retrieval code. -/
structure ConceptPayload where
  equip : List String
  brick_equip : List String
  ptags : List String
  raw : List String
  gconf : ℚ
deriving DecidableEq, Repr

/-- `HIGH_VALUE_EQUIP` from `build_grounded_filter`
(`app/services/retrieval.py` line 44). -/
def HIGH_VALUE_EQUIP : List String :=
  ["vav", "ahu", "fcu", "rtu", "chiller", "boiler", "pump", "fan"]

/-- `GENERIC_EQUIP` from `build_grounded_filter`
(`app/services/retrieval.py` line 47). -/
def GENERIC_EQUIP : List String :=
  ["actuator", "meter", "sensor", "controller"]

/-- Python `x in l` for a list of strings. -/
def pyIn (x : String) (l : List String) : Bool :=
  l.any (fun y => decide (y = x))

/-- A Qdrant `FieldCondition(key=..., match=MatchAny(any=...))`. -/
structure FieldCondition where
  key : String
  any : List String
deriving DecidableEq, Repr

/-- A Qdrant `Filter(should=conditions)`: OR semantics, match any condition. -/
structure Filter where
  should : List FieldCondition
deriving DecidableEq, Repr

/-- `build_grounded_filter` (`app/services/retrieval.py` lines 24-81).
Python truthiness of a list (`if equip:`) is non-emptiness. -/
def build_grounded_filter (query_concepts : ConceptPayload) : Option Filter :=
  let equip := query_concepts.equip
  let has_high_value := equip.any (fun e => pyIn e HIGH_VALUE_EQUIP)
  if !has_high_value && equip.all (fun e => pyIn e GENERIC_EQUIP) then
    none
  else
    let conditions : List FieldCondition :=
      (if !equip.isEmpty then [⟨"equip", equip⟩] else []) ++
      (if !query_concepts.brick_equip.isEmpty then
        [⟨"brick_equip", query_concepts.brick_equip⟩] else []) ++
      (if !query_concepts.ptags.isEmpty then
        [⟨"ptags", query_concepts.ptags⟩] else [])
    if conditions.isEmpty then none else some ⟨conditions⟩

/-- The metadata map stored on a Qdrant point / llama-index node: the
`_node_content` text plus the grounding keys consulted by the retrieval code
(`node.metadata.get("equip" | "brick_equip" | "ptags", [])`). -/
structure Metadata where
  node_content : String
  equip : List String
  brick_equip : List String
  ptags : List String
deriving DecidableEq, Repr

/-- A llama-index `TextNode` as built in `grounded_retrieve`
(`TextNode(text=..., id_=..., metadata=...)`). -/
structure TextNode where
  id : String
  text : String
  metadata : Metadata
deriving DecidableEq, Repr

/-- A llama-index `NodeWithScore`; `score` is optional
(`Optional[float]` in llama-index). -/
structure NodeWithScore where
  node : TextNode
  score : Option ℚ
deriving DecidableEq, Repr

/-- `len(set(a) & set(b))`: the number of distinct elements shared by the
two lists, as computed from Python sets in `rerank_by_overlap`. -/
def setInterCard (a b : List String) : Nat :=
  ((a.dedup).filter (fun x => pyIn x b)).length

/-- The boost multiplier accumulated in `rerank_by_overlap`
(`app/services/retrieval.py` lines 118-124): start at `1.0`, `*= 1.5` on
equipment overlap, `*= 1.3` on brick overlap, `*= 1.2` on point-tag overlap. -/
def boostFor (query_concepts : ConceptPayload) (m : Metadata) : ℚ :=
  let b0 : ℚ := 1
  let b1 := if 0 < setInterCard query_concepts.equip m.equip
    then b0 * (3 / 2) else b0
  let b2 := if 0 < setInterCard query_concepts.brick_equip m.brick_equip
    then b1 * (13 / 10) else b1
  if 0 < setInterCard query_concepts.ptags m.ptags
    then b2 * (6 / 5) else b2

/-- `node_with_score.score if node_with_score.score else 0.0`
(`app/services/retrieval.py` line 127): Python truthiness maps both `None`
and `0.0` to `0.0`, and any other float to itself. -/
def pyFloatOrZero : Option ℚ → ℚ
  | none => 0
  | some v => if v = 0 then 0 else v

/-- The body of the rerank loop (`app/services/retrieval.py` lines 106-136):
a fresh `NodeWithScore` carrying the same node and the boosted score. -/
def rescore (query_concepts : ConceptPayload) (n : NodeWithScore) : NodeWithScore :=
  ⟨n.node, some (pyFloatOrZero n.score * boostFor query_concepts n.node.metadata)⟩

/-- The sort key `lambda n: n.score` used by `reranked.sort`; every record the
rerank loop produces carries `some` score, so the default for `none` is never
reached from `rerank_by_overlap`. -/
def sortKey (n : NodeWithScore) : ℚ :=
  n.score.getD 0

/-- The descending-by-score ordering used by
`reranked.sort(key=lambda n: n.score, reverse=True)`. -/
def nodeGE (a b : NodeWithScore) : Prop :=
  sortKey b ≤ sortKey a

instance : DecidableRel nodeGE := fun a b =>
  inferInstanceAs (Decidable (sortKey b ≤ sortKey a))

instance : IsTotal NodeWithScore nodeGE :=
  ⟨fun a b => le_total (sortKey b) (sortKey a)⟩

instance : IsTrans NodeWithScore nodeGE :=
  ⟨fun _ _ _ h1 h2 => le_trans h2 h1⟩

/-- `rerank_by_overlap` (`app/services/retrieval.py` lines 84-140).  Python's
`list.sort(key=..., reverse=True)` is a stable descending sort; any stable
descending sort computes the same list, so it is modelled by the stable
`List.insertionSort` on the descending order `nodeGE`. -/
def rerank_by_overlap (nodes : List NodeWithScore)
    (query_concepts : ConceptPayload) : List NodeWithScore :=
  (nodes.map (rescore query_concepts)).insertionSort nodeGE

/-- A scored point of the vector store: its id, its similarity score for the
current query embedding, and its payload. -/
structure ScoredPoint where
  id : String
  score : ℚ
  payload : Metadata
deriving DecidableEq, Repr

/-- The conversion of a store point into a `NodeWithScore`, as in
`grounded_retrieve` (`TextNode(text=point.payload.get("_node_content", ""),
id_=str(point.id), metadata=point.payload)`, then
`NodeWithScore(node=node, score=point.score)`). -/
def toNode (p : ScoredPoint) : NodeWithScore :=
  ⟨⟨p.id, p.payload.node_content, p.payload⟩, some p.score⟩

/-- Whether a stored payload satisfies one `FieldCondition`: Qdrant
`MatchAny` on an array field holds when any stored value of that field is
among the condition's values.  The retrieval code only builds conditions on
the three grounding keys. -/
def matchesCondition (m : Metadata) (c : FieldCondition) : Bool :=
  let fieldVals : List String :=
    if c.key = "equip" then m.equip
    else if c.key = "brick_equip" then m.brick_equip
    else if c.key = "ptags" then m.ptags
    else []
  fieldVals.any (fun v => pyIn v c.any)

/-- Qdrant `Filter(should=...)` semantics: at least one condition matches. -/
def matchesFilter (m : Metadata) (f : Filter) : Bool :=
  f.should.any (fun c => matchesCondition m c)

/-- The environment of one retrieval request: the configuration values read
from `app/config.py` (`RETRIEVAL_MODE`, `GROUNDED_MIN_CONF`,
`GROUNDED_LIMIT_MULT`), the outcome of `ground_query` for each query text,
and the vector store, modelled through its documented contract as the
similarity ranking of all stored points for the query's embedding. -/
structure RetrievalEnv where
  mode : String
  minConf : ℚ
  limitMult : Nat
  ground : String → ConceptPayload
  ranked : String → List ScoredPoint

/-- The plain unfiltered similarity search
(`index.as_retriever(similarity_top_k=top_k).retrieve(query_text)`): the
store returns its `top_k` best-ranked points. -/
def plainSearch (env : RetrievalEnv) (query_text : String) (k : Nat) :
    List NodeWithScore :=
  ((env.ranked query_text).take k).map toNode

/-- The filtered over-fetch (`client.query_points(..., query_filter=...,
limit=...)` plus the point-to-node conversion loop): the store returns its
best-ranked points among those matching the filter, truncated at `limit`. -/
def filteredSearch (env : RetrievalEnv) (query_text : String) (f : Filter)
    (limit : Nat) : List NodeWithScore :=
  ((((env.ranked query_text).filter
      (fun p => matchesFilter p.payload f)).take limit).map toNode)

/-- `grounded_retrieve` (`app/services/retrieval.py` lines 143-266): the
orchestrator with its fallback gates (mode check, confidence gate, filter
gate, empty-result gate), over-fetch, rerank and truncation. -/
def grounded_retrieve (env : RetrievalEnv) (query_text : String)
    (top_k : Nat) : List NodeWithScore :=
  if env.mode ≠ "grounded" then
    plainSearch env query_text top_k
  else
    let query_concepts := env.ground query_text
    if query_concepts.gconf < env.minConf then
      plainSearch env query_text top_k
    else
      match build_grounded_filter query_concepts with
      | none => plainSearch env query_text top_k
      | some qdrant_filter =>
        let retrieve_limit := top_k * env.limitMult
        let nodes := filteredSearch env query_text qdrant_filter retrieve_limit
        if nodes.length = 0 then
          plainSearch env query_text top_k
        else
          (rerank_by_overlap nodes query_concepts).take top_k

/-! ### The grounding client (`app/grounding.py`)

`ground_text` parses an arbitrary JSON response under a catch-all
`except Exception`, so the model works over a JSON value type and renders
"a Python exception is raised here" as an explicit abort that returns the
payload accumulated so far (the `except` clause falls through to
`return payload`).  Floats are idealised as rationals. -/

/-- A JSON value, as returned by `response.json()`. -/
inductive JVal where
  | null
  | bool (b : Bool)
  | num (q : ℚ)
  | str (s : String)
  | arr (xs : List JVal)
  | obj (fields : List (String × JVal))

/-- Python truthiness (`if x:`) of a JSON value. -/
def pyTruthy : JVal → Bool
  | .null => false
  | .bool b => b
  | .num q => q ≠ 0
  | .str s => !s.data.isEmpty
  | .arr xs => !xs.isEmpty
  | .obj kvs => !kvs.isEmpty

/-- Python dict key lookup, as used by `.get` and `in` on a parsed JSON
object (dict keys are unique, so first match suffices). -/
def lookupKey (k : String) : List (String × JVal) → Option JVal
  | [] => none
  | kv :: rest => if kv.1 = k then some kv.2 else lookupKey k rest

/-- Python iteration (`for x in v`): lists yield their elements, strings
their one-character substrings, dicts their keys; other values raise
`TypeError` (`none`). -/
def pyIter : JVal → Option (List JVal)
  | .arr xs => some xs
  | .str s => some (s.data.map (fun c => .str c.toString))
  | .obj kvs => some (kvs.map (fun kv => .str kv.1))
  | _ => none

/-- Python numeric coercion as used by `sum(...)`: numbers are themselves,
booleans count as `0`/`1`, anything else raises `TypeError` (`none`). -/
def pyToNum : JVal → Option ℚ
  | .num q => some q
  | .bool b => some (if b then 1 else 0)
  | _ => none

/-- Python slicing `s[:n]`: the first `n` characters (code points). -/
def pyTruncate (s : String) (n : Nat) : String :=
  ⟨s.data.take n⟩

/-- Python `s.strip()`: remove leading and trailing whitespace. -/
def pyStrip (s : String) : String :=
  ⟨((s.data.dropWhile Char.isWhitespace).reverse.dropWhile
      Char.isWhitespace).reverse⟩

/-- Python `s.lower()`: lower-case every character. -/
def pyLower (s : String) : String :=
  ⟨s.data.map Char.toLower⟩

/-- A JSON value as a Python `str`: anything else raises when a string is
required (`" ".join` elements, `.lower()`). -/
def asString : JVal → Option String
  | .str s => some s
  | _ => none

/-- Python `" ".join(v)`: joins a list of strings, the characters of a
string, or the keys of a dict; anything else (including a list with a
non-string element) raises `TypeError` (`none`). -/
def pyJoin : JVal → Option String
  | .arr xs =>
    (xs.mapM asString).map (fun ss => String.intercalate " " ss)
  | .str s => some (String.intercalate " " (s.data.map (fun c => c.toString)))
  | .obj kvs => some (String.intercalate " " (kvs.map (fun kv => kv.1)))
  | _ => none

/-- The payload dict built by `ground_text` (`app/grounding.py` lines
43-49).  `equip` and `brick_equip` receive whatever truthy values
`equip.get("haystack_kind")` / `equip.get("brick_class")` return, so they
hold JSON values; `ptags` and `raw` only ever receive strings. -/
structure GPayload where
  equip : List JVal
  brick_equip : List JVal
  ptags : List String
  raw : List String
  gconf : ℚ

/-- The initial all-empty payload of `ground_text`. -/
def emptyGPayload : GPayload :=
  ⟨[], [], [], [], 0⟩

/-- One step of the `for equip in equipment_types` loop
(`app/grounding.py` lines 73-80): a non-dict entry raises
`AttributeError` on `.get` (`none`); otherwise the optional truthy
`haystack_kind` / `brick_class` contributions. -/
def equipStep : JVal → Option (Option JVal × Option JVal)
  | .obj kvs =>
    let k := (lookupKey "haystack_kind" kvs).getD .null
    let b := (lookupKey "brick_class" kvs).getD .null
    some (if pyTruthy k then some k else none, if pyTruthy b then some b else none)
  | _ => none

/-- The `equipment_types` loop: the accumulated `equip` and `brick_equip`
lists, and whether the loop completed without raising. -/
def equipLoop : List JVal → List JVal × List JVal × Bool
  | [] => ([], [], true)
  | e :: rest =>
    match equipStep e with
    | none => ([], [], false)
    | some (k, b) =>
      let (ks, bs, ok) := equipLoop rest
      (k.toList ++ ks, b.toList ++ bs, ok)

/-- One step of the `for point in point_types` loop (`app/grounding.py`
lines 83-89): a non-dict entry raises on `.get` (`none`); a falsy
`haystack_tags` is skipped (`some none`); otherwise the joined tag string
(`" ".join(tags)`, which may itself raise). -/
def pointStep : JVal → Option (Option String)
  | .obj kvs =>
    let tags := (lookupKey "haystack_tags" kvs).getD (.arr [])
    if pyTruthy tags then
      match pyJoin tags with
      | some s => some (some s)
      | none => none
    else some none
  | _ => none

/-- The `point_types` loop: the accumulated `ptags` list and whether the
loop completed without raising. -/
def pointLoop : List JVal → List String × Bool
  | [] => ([], true)
  | p :: rest =>
    match pointStep p with
    | none => ([], false)
    | some s =>
      let (ss, ok) := pointLoop rest
      (s.toList ++ ss, ok)

/-- `sorted(list(set(t.lower() for t in raw_tags)))` (`app/grounding.py`
line 93): iterating a non-iterable or lowering a non-string raises
(`none`), so `payload["raw"]` is only assigned when every tag is a
string. -/
def rawParse (rts : JVal) : Option (List String) :=
  (pyIter rts).bind (fun items =>
    (items.mapM (fun v => (asString v).map pyLower)).map
      (fun ss => ss.dedup.insertionSort (· ≤ ·)))

/-- One step of the confidence-collection loops (`app/grounding.py` lines
96-102): `"confidence" in entry` then `entry["confidence"]`.  By the time
these loops run, both earlier loops completed, so every entry is a dict
(a non-dict entry would already have raised); non-dict entries therefore
contribute nothing here. -/
def confStep : JVal → Option JVal
  | .obj kvs => lookupKey "confidence" kvs
  | _ => none

/-- The collected confidence values of a list of entries. -/
def confLoop (items : List JVal) : List JVal :=
  items.filterMap confStep

/-- `if confidences: payload["gconf"] = sum(confidences)/len(confidences)`
(`app/grounding.py` lines 104-105): the mean when every value is numeric
and the list is non-empty; `0.0` when the list is empty, and also when
`sum` raises `TypeError` on a non-numeric value (the exception is caught
and the payload, `gconf` still `0.0`, is returned). -/
def meanGconf (confs : List JVal) : ℚ :=
  match confs.mapM pyToNum with
  | some qs => if qs.isEmpty then 0 else qs.sum / (qs.length : ℚ)
  | none => 0

/-- The response-parsing phase of `ground_text` (`app/grounding.py` lines
69-105), applied to the value returned by `response.json()`.  Each abort
point returns exactly the payload accumulated when the corresponding
Python exception is raised (caught by the catch-all handler). -/
def parseGround : JVal → GPayload
  | .obj kvs =>
    match pyIter ((lookupKey "equipment_types" kvs).getD (.arr [])) with
    | none => emptyGPayload
    | some etItems =>
      match equipLoop etItems with
      | (eAcc, bAcc, false) => { emptyGPayload with equip := eAcc, brick_equip := bAcc }
      | (eAcc, bAcc, true) =>
        match pyIter ((lookupKey "point_types" kvs).getD (.arr [])) with
        | none => { emptyGPayload with equip := eAcc, brick_equip := bAcc }
        | some ptItems =>
          match pointLoop ptItems with
          | (pAcc, false) =>
            { emptyGPayload with equip := eAcc, brick_equip := bAcc, ptags := pAcc }
          | (pAcc, true) =>
            match rawParse ((lookupKey "raw_tags" kvs).getD (.arr [])) with
            | none =>
              { emptyGPayload with equip := eAcc, brick_equip := bAcc, ptags := pAcc }
            | some raws =>
              { equip := eAcc, brick_equip := bAcc, ptags := pAcc, raw := raws,
                gconf := meanGconf (confLoop etItems ++ confLoop ptItems) }
  | _ => emptyGPayload

/-- The outcome of the single `requests.post` call in `ground_text`:
a timeout, a connection failure, any other exception raised by the call
itself, or an HTTP response with a status code and a body (`none` when
`response.json()` raises on an unparseable body). -/
inductive HttpOutcome where
  | timeout
  | connError
  | otherError
  | response (status : Nat) (body : Option JVal)

/-- `ground_text` (`app/grounding.py` lines 21-116): truncate and strip the
input text (empty → all-empty payload without network I/O); then, per the
call outcome: non-200 status, unparseable body, timeout, connection
failure or any other request exception yield the all-empty payload, and a
parseable 200 body is parsed by `parseGround` (whose aborts model the
catch-all exception handler returning the accumulated payload). -/
def ground_text (text : String) (max_length : Nat) (outcome : HttpOutcome) : GPayload :=
  if (pyStrip (pyTruncate text max_length)).data.isEmpty then emptyGPayload
  else
    match outcome with
    | .timeout => emptyGPayload
    | .connError => emptyGPayload
    | .otherError => emptyGPayload
    | .response status body =>
      if status ≠ 200 then emptyGPayload
      else
        match body with
        | none => emptyGPayload
        | some data => parseGround data

/-- `ground_query` (`app/grounding.py` lines 156-176):
`ground_text(query, max_length=500)`. -/
def ground_query (query : String) (outcome : HttpOutcome) : GPayload :=
  ground_text query 500 outcome

/-! ### Well-typed grounding responses, for the success-path claims -/

/-- A well-formed entry of `equipment_types` in a grounding response
(spec §4.1: an equipment-kind code, optional ontology class, optional
confidence). -/
structure EquipEntry where
  haystack_kind : Option String
  brick_class : Option String
  confidence : Option ℚ
deriving DecidableEq, Repr

/-- A well-formed entry of `point_types` (a list of descriptor tags and an
optional confidence). -/
structure PointEntry where
  haystack_tags : List String
  confidence : Option ℚ
deriving DecidableEq, Repr

/-- A well-formed grounding response
(`{equipment_types: [...], point_types: [...], raw_tags: [...]}`). -/
structure GroundResponse where
  equipment_types : List EquipEntry
  point_types : List PointEntry
  raw_tags : List String
deriving DecidableEq, Repr

/-- The JSON encoding of a well-formed `equipment_types` entry; absent
optional fields are omitted. -/
def encodeEquip (e : EquipEntry) : JVal :=
  .obj ((match e.haystack_kind with
          | some s => [("haystack_kind", JVal.str s)] | none => []) ++
        (match e.brick_class with
          | some s => [("brick_class", JVal.str s)] | none => []) ++
        (match e.confidence with
          | some q => [("confidence", JVal.num q)] | none => []))

/-- The JSON encoding of a well-formed `point_types` entry. -/
def encodePoint (p : PointEntry) : JVal :=
  .obj ([("haystack_tags", JVal.arr (p.haystack_tags.map JVal.str))] ++
        (match p.confidence with
          | some q => [("confidence", JVal.num q)] | none => []))

/-- The JSON encoding of a well-formed grounding response. -/
def encodeResponse (r : GroundResponse) : JVal :=
  .obj [("equipment_types", .arr (r.equipment_types.map encodeEquip)),
        ("point_types", .arr (r.point_types.map encodePoint)),
        ("raw_tags", .arr (r.raw_tags.map JVal.str))]

/-- All per-concept confidence values present across both lists of a
well-formed response, in the order the code collects them. -/
def allConfidences (r : GroundResponse) : List ℚ :=
  r.equipment_types.filterMap (fun e => e.confidence) ++
  r.point_types.filterMap (fun p => p.confidence)

/-! ### Helper lemmas -/

theorem pyIn_iff (x : String) (l : List String) : pyIn x l = true ↔ x ∈ l := by
  simp only [pyIn, List.any_eq_true, decide_eq_true_eq]
  exact ⟨fun ⟨y, hy, he⟩ => he ▸ hy, fun h => ⟨x, h, rfl⟩⟩

theorem isEmpty_false_of_mem {α : Type} {x : α} {l : List α} (h : x ∈ l) :
    l.isEmpty = false := by
  cases l with
  | nil => cases h
  | cons a t => rfl

/-! ### Claim theorems -/

/-- C1: for every query and `topK`, if the configured retrieval mode is not
`"grounded"`, or the grounding confidence is below the threshold, or the
filter builder returns `None`, or the filtered overfetch returns zero
candidates, then `grounded_retrieve` returns exactly the sequence produced by
a plain unfiltered similarity search with the same `topK`, with no reranking
applied. -/
theorem grounded_retrieve_fallback (env : RetrievalEnv) (q : String) (k : Nat)
    (h : env.mode ≠ "grounded" ∨ (env.ground q).gconf < env.minConf ∨
      build_grounded_filter (env.ground q) = none ∨
      ∃ f, build_grounded_filter (env.ground q) = some f ∧
        filteredSearch env q f (k * env.limitMult) = []) :
    grounded_retrieve env q k = plainSearch env q k := by
  by_cases hm : env.mode ≠ "grounded"
  · simp [grounded_retrieve, hm]
  · by_cases hconf : (env.ground q).gconf < env.minConf
    · simp [grounded_retrieve, hm, hconf]
    · rcases hb : build_grounded_filter (env.ground q) with _ | f
      · simp [grounded_retrieve, hm, hconf, hb]
      · rcases h with h | h | h | ⟨f', hf', hemp⟩
        · exact absurd h hm
        · exact absurd h hconf
        · rw [hb] at h; cases h
        · rw [hb] at hf'
          have hff : f = f' := by injection hf'
          subst hff
          simp [grounded_retrieve, hm, hconf, hb, hemp]

/-- Witness for C1: a concrete environment in vanilla mode falls back to the
plain search. -/
theorem grounded_retrieve_fallback_witness :
    (RetrievalEnv.mk "vanilla" 1 4 (fun _ => ⟨[], [], [], [], 0⟩)
        (fun _ => [⟨"p1", 1, ⟨"t", ["vav"], [], []⟩⟩])).mode ≠ "grounded" ∧
    grounded_retrieve (RetrievalEnv.mk "vanilla" 1 4 (fun _ => ⟨[], [], [], [], 0⟩)
        (fun _ => [⟨"p1", 1, ⟨"t", ["vav"], [], []⟩⟩])) "q" 4 =
      plainSearch (RetrievalEnv.mk "vanilla" 1 4 (fun _ => ⟨[], [], [], [], 0⟩)
        (fun _ => [⟨"p1", 1, ⟨"t", ["vav"], [], []⟩⟩])) "q" 4 :=
  ⟨by decide, grounded_retrieve_fallback _ "q" 4 (Or.inl (by decide))⟩

/-- C4, counterexample: a payload whose equipment-kind list is empty but whose
point-tag-phrase list is non-empty makes the generic-equipment gate fire
vacuously (`all` over an empty list is true), so `build_grounded_filter`
returns `None` rather than a filter with a point-tag condition. -/
theorem build_grounded_filter_empty_equip_counterexample :
    build_grounded_filter ⟨[], [], ["discharge air temperature sensor"], [], 9/10⟩ = none := by
  decide

/-- C4, amended: for every payload that passes the generic-equipment gate
(which forces a non-empty equipment list), `build_grounded_filter` returns a
filter whose `should` (OR) list has exactly one field-membership condition per
non-empty field among equipment kinds, ontology classes and point-tag
phrases, and never returns `None`; a payload with an empty equipment-kind
list, however, never passes the gate, so `None` is returned even when the
point-tag list is non-empty. -/
theorem build_grounded_filter_of_gate (qc : ConceptPayload)
    (hgate : (∃ e ∈ qc.equip, e ∈ HIGH_VALUE_EQUIP) ∨ ∃ e ∈ qc.equip, e ∉ GENERIC_EQUIP) :
    build_grounded_filter qc =
      some ⟨[⟨"equip", qc.equip⟩] ++
        (if qc.brick_equip ≠ [] then [⟨"brick_equip", qc.brick_equip⟩] else []) ++
        (if qc.ptags ≠ [] then [⟨"ptags", qc.ptags⟩] else [])⟩ := by
  have hgateB : (!qc.equip.any (fun e => pyIn e HIGH_VALUE_EQUIP) &&
      qc.equip.all (fun e => pyIn e GENERIC_EQUIP)) = false := by
    rcases hgate with ⟨e, he, hH⟩ | ⟨e, he, hG⟩
    · have hA : qc.equip.any (fun x => pyIn x HIGH_VALUE_EQUIP) = true :=
        List.any_eq_true.mpr ⟨e, he, (pyIn_iff e _).mpr hH⟩
      rw [hA]; rfl
    · have hB : qc.equip.all (fun x => pyIn x GENERIC_EQUIP) = false := by
        rcases hall : qc.equip.all (fun x => pyIn x GENERIC_EQUIP) with _ | _
        · rfl
        · exact absurd ((pyIn_iff e _).mp (List.all_eq_true.mp hall e he)) hG
      rw [hB, Bool.and_false]
  have hne : qc.equip.isEmpty = false := by
    rcases hgate with ⟨e, he, _⟩ | ⟨e, he, _⟩ <;> exact isEmpty_false_of_mem he
  rw [build_grounded_filter]
  simp only [hgateB, Bool.false_eq_true, if_false, hne, Bool.not_false, if_true]
  have h2 : (!qc.brick_equip.isEmpty) = true ↔ qc.brick_equip ≠ [] := by
    simp [List.isEmpty_iff]
  have h3 : (!qc.ptags.isEmpty) = true ↔ qc.ptags ≠ [] := by
    simp [List.isEmpty_iff]
  rw [if_congr h2 rfl rfl, if_congr h3 rfl rfl]
  rw [if_neg]
  simp [List.isEmpty_iff]

/-- Witness for C4 (amended): a payload with a high-value equipment kind and a
point-tag phrase yields a filter with exactly the equip and ptags
conditions. -/
theorem build_grounded_filter_of_gate_witness :
    build_grounded_filter ⟨["vav"], [], ["discharge air temp sensor"], [], 1⟩ =
      some ⟨[⟨"equip", ["vav"]⟩, ⟨"ptags", ["discharge air temp sensor"]⟩]⟩ := by
  rw [build_grounded_filter_of_gate _ (Or.inl ⟨"vav", by decide, by decide⟩)]
  decide

/-- C5: a non-empty equipment list of only generic kinds with no high-value
kind yields no filter, while any payload containing a high-value kind yields a
filter. -/
theorem build_grounded_filter_generic_vs_high_value :
    (∀ qc : ConceptPayload,
      (∀ e ∈ qc.equip, e ∈ GENERIC_EQUIP) → (∀ e ∈ qc.equip, e ∉ HIGH_VALUE_EQUIP) →
      build_grounded_filter qc = none) ∧
    (∀ qc : ConceptPayload, (∃ e ∈ qc.equip, e ∈ HIGH_VALUE_EQUIP) →
      ∃ f, build_grounded_filter qc = some f) := by
  constructor
  · intro qc hgen hnohigh
    have h1 : qc.equip.any (fun e => pyIn e HIGH_VALUE_EQUIP) = false := by
      simp only [List.any_eq_false]
      intro e he
      simp only [Bool.not_eq_true]
      rcases h : pyIn e HIGH_VALUE_EQUIP with _ | _
      · rfl
      · exact absurd ((pyIn_iff e _).mp h) (hnohigh e he)
    have h2 : qc.equip.all (fun e => pyIn e GENERIC_EQUIP) = true := by
      simp only [List.all_eq_true]
      exact fun e he => (pyIn_iff e _).mpr (hgen e he)
    rw [build_grounded_filter]
    simp [h1, h2]
  · intro qc hhigh
    exact ⟨_, build_grounded_filter_of_gate qc (Or.inl hhigh)⟩

/-- Witness for C5: `["sensor"]` (generic-only) yields `None`; `["vav"]`
(high-value) yields a filter. -/
theorem build_grounded_filter_generic_vs_high_value_witness :
    build_grounded_filter ⟨["sensor"], [], [], [], 1⟩ = none ∧
    ∃ f, build_grounded_filter ⟨["vav"], [], [], [], 1⟩ = some f :=
  ⟨build_grounded_filter_generic_vs_high_value.1 _ (by decide) (by decide),
   build_grounded_filter_generic_vs_high_value.2 _ ⟨"vav", by decide, by decide⟩⟩

/-- C7: the reranker's adjusted score is the candidate's original score (`0.0`
when absent) times the product of the three independent boosts (`1.5` for
equipment overlap, `1.3` for ontology-class overlap, `1.2` for point-tag
overlap); in particular, with equipment and point-tag overlap but no
ontology-class overlap, it is `s * 1.5 * 1.2`. -/
theorem rescore_boost (qc : ConceptPayload) (n : NodeWithScore) :
    (rescore qc n).score = some (pyFloatOrZero n.score *
      ((if 0 < setInterCard qc.equip n.node.metadata.equip then (3/2 : ℚ) else 1) *
       ((if 0 < setInterCard qc.brick_equip n.node.metadata.brick_equip then (13/10 : ℚ) else 1) *
        (if 0 < setInterCard qc.ptags n.node.metadata.ptags then (6/5 : ℚ) else 1)))) ∧
    (0 < setInterCard qc.equip n.node.metadata.equip →
     setInterCard qc.brick_equip n.node.metadata.brick_equip = 0 →
     0 < setInterCard qc.ptags n.node.metadata.ptags →
     (rescore qc n).score = some (pyFloatOrZero n.score * (3/2) * (6/5))) := by
  constructor
  · show some _ = some _
    congr 1
    rw [boostFor]
    split_ifs <;> ring
  · intro h1 h2 h3
    show some _ = some _
    congr 1
    rw [boostFor]
    simp only [h1, if_pos, h2, Nat.lt_irrefl, if_neg, h3, Nat.not_lt_zero, if_false]
    norm_num
    ring

/-- Witness for C7: a candidate with score `4/5`, equipment overlap `vav`,
point-tag overlap, and no ontology-class overlap. -/
theorem rescore_boost_witness :
    0 < setInterCard ["vav"] ["vav", "ahu"] ∧
    setInterCard ["cls"] [] = 0 ∧
    0 < setInterCard ["p q"] ["p q"] ∧
    (rescore ⟨["vav"], ["cls"], ["p q"], [], 1⟩
        ⟨⟨"n1", "", ⟨"", ["vav", "ahu"], [], ["p q"]⟩⟩, some (4/5)⟩).score =
      some (pyFloatOrZero (some (4/5)) * (3/2) * (6/5)) :=
  ⟨by decide, by decide, by decide,
   (rescore_boost ⟨["vav"], ["cls"], ["p q"], [], 1⟩
      ⟨⟨"n1", "", ⟨"", ["vav", "ahu"], [], ["p q"]⟩⟩, some (4/5)⟩).2
     (by decide) (by decide) (by decide)⟩

/-- C8: the reranked output is sorted descending by adjusted score, and two
candidates with equal adjusted scores keep the relative order they had in the
pre-sort (rescored) sequence — Python's `list.sort` is stable, and
`reverse=True` preserves stability. -/
theorem rerank_by_overlap_sorted_stable (nodes : List NodeWithScore)
    (qc : ConceptPayload) :
    (rerank_by_overlap nodes qc).Pairwise (fun a b => sortKey b ≤ sortKey a) ∧
    (∀ a b : NodeWithScore, sortKey a = sortKey b →
      [a, b].Sublist (nodes.map (rescore qc)) →
      [a, b].Sublist (rerank_by_overlap nodes qc)) := by
  constructor
  · exact List.sorted_insertionSort nodeGE (nodes.map (rescore qc))
  · intro a b hk hsub
    exact List.pair_sublist_insertionSort (le_of_eq hk.symm) hsub

/-- Witness for C8: two equal-scored candidates keep their input order. -/
theorem rerank_by_overlap_sorted_stable_witness :
    sortKey (rescore ⟨[], [], [], [], 0⟩ ⟨⟨"a", "", ⟨"", [], [], []⟩⟩, some 1⟩) =
      sortKey (rescore ⟨[], [], [], [], 0⟩ ⟨⟨"b", "", ⟨"", [], [], []⟩⟩, some 1⟩) ∧
    [rescore ⟨[], [], [], [], 0⟩ ⟨⟨"a", "", ⟨"", [], [], []⟩⟩, some 1⟩,
     rescore ⟨[], [], [], [], 0⟩ ⟨⟨"b", "", ⟨"", [], [], []⟩⟩, some 1⟩].Sublist
      (rerank_by_overlap [⟨⟨"a", "", ⟨"", [], [], []⟩⟩, some 1⟩,
        ⟨⟨"b", "", ⟨"", [], [], []⟩⟩, some 1⟩] ⟨[], [], [], [], 0⟩) :=
  ⟨rfl,
   (rerank_by_overlap_sorted_stable
      [⟨⟨"a", "", ⟨"", [], [], []⟩⟩, some 1⟩, ⟨⟨"b", "", ⟨"", [], [], []⟩⟩, some 1⟩]
      ⟨[], [], [], [], 0⟩).2 _ _ rfl (List.Sublist.refl _)⟩

/-- C10: reranking preserves length, the multiset of underlying chunk
references (no candidate dropped or duplicated), and every output record is a
freshly built record `rescore qc n` for some input candidate `n` — input
records are not mutated; the code builds a new `NodeWithScore` per
candidate. -/
theorem rerank_by_overlap_permutes (nodes : List NodeWithScore)
    (qc : ConceptPayload) :
    (rerank_by_overlap nodes qc).length = nodes.length ∧
    ((rerank_by_overlap nodes qc).map NodeWithScore.node).Perm
      (nodes.map NodeWithScore.node) ∧
    ∀ m ∈ rerank_by_overlap nodes qc, ∃ n ∈ nodes, m = rescore qc n := by
  refine ⟨?_, ?_, ?_⟩
  · rw [rerank_by_overlap, List.length_insertionSort, List.length_map]
  · have hp := (List.perm_insertionSort nodeGE (nodes.map (rescore qc))).map
      NodeWithScore.node
    rw [rerank_by_overlap]
    refine hp.trans ?_
    rw [List.map_map]
    have hcomp : NodeWithScore.node ∘ rescore qc = NodeWithScore.node := by
      funext n; rfl
    rw [hcomp]
  · intro m hm
    rw [rerank_by_overlap] at hm
    have hm2 := (List.perm_insertionSort nodeGE (nodes.map (rescore qc))).mem_iff.mp hm
    rcases List.mem_map.mp hm2 with ⟨n, hn, he⟩
    exact ⟨n, hn, he.symm⟩

/-- Witness for C10 at a concrete input. -/
theorem rerank_by_overlap_permutes_witness :
    (rerank_by_overlap [⟨⟨"a", "", ⟨"", [], [], []⟩⟩, some 1⟩]
        ⟨[], [], [], [], 0⟩).length = 1 ∧
    ∃ n ∈ [(⟨⟨"a", "", ⟨"", [], [], []⟩⟩, some 1⟩ : NodeWithScore)],
      rescore ⟨[], [], [], [], 0⟩ ⟨⟨"a", "", ⟨"", [], [], []⟩⟩, some 1⟩ =
        rescore ⟨[], [], [], [], 0⟩ n :=
  ⟨(rerank_by_overlap_permutes [⟨⟨"a", "", ⟨"", [], [], []⟩⟩, some 1⟩]
      ⟨[], [], [], [], 0⟩).1,
   (rerank_by_overlap_permutes [⟨⟨"a", "", ⟨"", [], [], []⟩⟩, some 1⟩]
      ⟨[], [], [], [], 0⟩).2.2 _ (List.Mem.head _)⟩

/-- C2, counterexample: with two stored documents (at least `topK = 2`) but
only one matching the built filter, the filtered path is taken (one candidate
is not zero, so no fallback) and the truncated result has length `1 < topK`,
refuting "length equals `topK` whenever the store holds at least `topK`
documents, regardless of the path taken". -/
theorem grounded_retrieve_topk_counterexample :
    2 ≤ ((RetrievalEnv.mk "grounded" 0 4 (fun _ => ⟨["vav"], [], [], [], 0⟩)
        (fun _ => [⟨"p1", 2, ⟨"t1", ["vav"], [], []⟩⟩,
                   ⟨"p2", 1, ⟨"t2", ["ahu"], [], []⟩⟩])).ranked "q").length ∧
    (grounded_retrieve (RetrievalEnv.mk "grounded" 0 4 (fun _ => ⟨["vav"], [], [], [], 0⟩)
        (fun _ => [⟨"p1", 2, ⟨"t1", ["vav"], [], []⟩⟩,
                   ⟨"p2", 1, ⟨"t2", ["ahu"], [], []⟩⟩])) "q" 2).length ≠ 2 := by
  constructor
  · decide
  · decide

/-- C2, amended: the result has length at most `topK` always; and length
exactly `topK` whenever the store holds at least `topK` documents, provided
that whenever the grounded filtered path applies (grounded mode, confidence
at threshold, filter built) at least `topK` stored documents match the built
filter.  (Without that proviso the filtered path can return fewer: the
overfetch is limited to the filter-matching documents, and a non-empty
result short of `topK` is truncated, not topped up.) -/
theorem grounded_retrieve_topk (env : RetrievalEnv) (q : String) (k : Nat) :
    (grounded_retrieve env q k).length ≤ k ∧
    (k ≤ (env.ranked q).length →
     (∀ f, env.mode = "grounded" → ¬ (env.ground q).gconf < env.minConf →
        build_grounded_filter (env.ground q) = some f →
        k ≤ ((env.ranked q).filter (fun p => matchesFilter p.payload f)).length) →
     (grounded_retrieve env q k).length = k) := by
  have hplain_len : (plainSearch env q k).length = min k (env.ranked q).length := by
    simp [plainSearch]
  by_cases hm : env.mode ≠ "grounded"
  · rw [show grounded_retrieve env q k = plainSearch env q k by
      simp [grounded_retrieve, hm]]
    rw [hplain_len]
    exact ⟨Nat.min_le_left _ _, fun hs _ => Nat.min_eq_left hs⟩
  · by_cases hconf : (env.ground q).gconf < env.minConf
    · rw [show grounded_retrieve env q k = plainSearch env q k by
        simp [grounded_retrieve, hm, hconf]]
      rw [hplain_len]
      exact ⟨Nat.min_le_left _ _, fun hs _ => Nat.min_eq_left hs⟩
    · rcases hb : build_grounded_filter (env.ground q) with _ | f
      · rw [show grounded_retrieve env q k = plainSearch env q k by
          simp [grounded_retrieve, hm, hconf, hb]]
        rw [hplain_len]
        exact ⟨Nat.min_le_left _ _, fun hs _ => Nat.min_eq_left hs⟩
      · have hfs_len : (filteredSearch env q f (k * env.limitMult)).length =
            min (k * env.limitMult)
              ((env.ranked q).filter (fun p => matchesFilter p.payload f)).length := by
          simp [filteredSearch]
        by_cases hemp : (filteredSearch env q f (k * env.limitMult)).length = 0
        · rw [show grounded_retrieve env q k = plainSearch env q k by
            simp [grounded_retrieve, hm, hconf, hb, hemp]]
          rw [hplain_len]
          exact ⟨Nat.min_le_left _ _, fun hs _ => Nat.min_eq_left hs⟩
        · have hres : grounded_retrieve env q k =
              (rerank_by_overlap (filteredSearch env q f (k * env.limitMult))
                (env.ground q)).take k := by
            simp [grounded_retrieve, hm, hconf, hb, hemp]
          have hrr : (rerank_by_overlap (filteredSearch env q f (k * env.limitMult))
              (env.ground q)).length =
              (filteredSearch env q f (k * env.limitMult)).length := by
            rw [rerank_by_overlap, List.length_insertionSort, List.length_map]
          rw [hres, List.length_take, hrr]
          refine ⟨Nat.min_le_left _ _, fun hs hfilt => ?_⟩
          have hM := hfilt f (not_not.mp hm) hconf rfl
          rw [hfs_len]
          have hmult : 1 ≤ env.limitMult := by
            by_contra hlt
            have h0 : env.limitMult = 0 := by omega
            rw [hfs_len, h0, Nat.mul_zero, Nat.zero_min] at hemp
            exact hemp rfl
          have hkk : k ≤ k * env.limitMult :=
            Nat.le_mul_of_pos_right k (by omega)
          omega

/-- Witness for C2: a vanilla-mode environment with two stored documents and
`topK = 2` returns exactly two candidates. -/
theorem grounded_retrieve_topk_witness :
    (grounded_retrieve (RetrievalEnv.mk "vanilla" 0 4 (fun _ => ⟨[], [], [], [], 0⟩)
        (fun _ => [⟨"p1", 2, ⟨"t1", ["vav"], [], []⟩⟩,
                   ⟨"p2", 1, ⟨"t2", ["ahu"], [], []⟩⟩])) "q" 2).length ≤ 2 ∧
    (grounded_retrieve (RetrievalEnv.mk "vanilla" 0 4 (fun _ => ⟨[], [], [], [], 0⟩)
        (fun _ => [⟨"p1", 2, ⟨"t1", ["vav"], [], []⟩⟩,
                   ⟨"p2", 1, ⟨"t2", ["ahu"], [], []⟩⟩])) "q" 2).length = 2 :=
  ⟨(grounded_retrieve_topk _ "q" 2).1,
   (grounded_retrieve_topk _ "q" 2).2 (by decide)
     (fun f hmode _ _ => absurd hmode (by decide))⟩

/-- C3, counterexample: a 200 response whose `point_types` is not iterable is
a grounding failure (the code logs "Grounding failed" from the catch-all
handler), yet `ground_text` returns a payload whose `equip` list already
holds the entry parsed before the exception — not the all-empty payload the
claim requires on any failure. -/
theorem ground_text_partial_payload_counterexample :
    ground_text "chiller status" 800 (.response 200 (some (.obj
      [("equipment_types", .arr [.obj [("haystack_kind", .str "ahu")]]),
       ("point_types", .num 7)]))) = { emptyGPayload with equip := [.str "ahu"] } ∧
    ({ emptyGPayload with equip := [.str "ahu"] } : GPayload) ≠ emptyGPayload := by
  refine ⟨rfl, fun h => ?_⟩
  have h2 := congrArg GPayload.equip h
  simp [emptyGPayload] at h2

/-- C3, amended: `ground_text` is total (never raises — every exception of the
request and of the parse is caught) and always returns the five-field
payload; the payload is all-empty on timeout, connection failure, any other
request exception, every non-200 status, and an unparseable body.  A parse
failure part-way through a 200 body, however, returns the fields accumulated
before the exception, which need not be empty. -/
theorem ground_text_failure_empty (text : String) (maxLen : Nat) (st : Nat) :
    ground_text text maxLen .timeout = emptyGPayload ∧
    ground_text text maxLen .connError = emptyGPayload ∧
    ground_text text maxLen .otherError = emptyGPayload ∧
    (st ≠ 200 → ∀ body, ground_text text maxLen (.response st body) = emptyGPayload) ∧
    ground_text text maxLen (.response 200 none) = emptyGPayload := by
  refine ⟨?_, ?_, ?_, fun hst body => ?_, ?_⟩ <;>
    · rw [ground_text.eq_def]
      split
      · rfl
      · simp [*]

/-- Witness for C3 (amended): a 404 status yields the all-empty payload. -/
theorem ground_text_failure_empty_witness :
    (404 ≠ 200) ∧
    ground_text "chiller" 800 (.response 404 (some (.obj []))) = emptyGPayload ∧
    ground_text "chiller" 800 .timeout = emptyGPayload :=
  ⟨by decide,
   (ground_text_failure_empty "chiller" 800 404).2.2.2.1 (by decide) _,
   (ground_text_failure_empty "chiller" 800 404).1⟩

/-- C6: contrary to the spec (and to the docstring "Returns empty lists if
grounding fails"), a malformed response — here a non-string `raw_tags`
entry — does not yield the all-empty payload: `.lower()` raises after the
equipment loop already populated `equip`, the catch-all handler returns the
accumulated payload, and the caller receives a partially populated payload. -/
theorem ground_text_malformed_raw_partial :
    ground_text "vav damper stuck" 800 (.response 200 (some (.obj
      [("equipment_types", .arr [.obj [("haystack_kind", .str "vav")]]),
       ("point_types", .arr []),
       ("raw_tags", .arr [.num 42])]))) = { emptyGPayload with equip := [.str "vav"] } ∧
    ({ emptyGPayload with equip := [.str "vav"] } : GPayload) ≠ emptyGPayload := by
  refine ⟨rfl, fun h => ?_⟩
  have h2 := congrArg GPayload.equip h
  simp [emptyGPayload] at h2

/-! ### Parsing well-formed responses -/

theorem equipStep_encode (e : EquipEntry) :
    ∃ kb, equipStep (encodeEquip e) = some kb :=
  ⟨_, rfl⟩

theorem equipLoop_encode (es : List EquipEntry) :
    ∃ eAcc bAcc, equipLoop (es.map encodeEquip) = (eAcc, bAcc, true) := by
  induction es with
  | nil => exact ⟨[], [], rfl⟩
  | cons e es ih =>
    obtain ⟨eAcc, bAcc, ih⟩ := ih
    obtain ⟨⟨k, b⟩, hkb⟩ := equipStep_encode e
    exact ⟨k.toList ++ eAcc, b.toList ++ bAcc, by simp [equipLoop, hkb, ih]⟩

theorem mapM_loop_map_some {α β γ : Type} (f : γ → Option β) (g : α → γ)
    (h : α → β) (hfg : ∀ a, f (g a) = some (h a)) (ts : List α) (acc : List β) :
    List.mapM.loop f (ts.map g) acc = some (acc.reverse ++ ts.map h) := by
  induction ts generalizing acc with
  | nil => simp [List.mapM.loop]
  | cons t ts ih => simp [List.mapM.loop, hfg, ih]

theorem mapM_asString_str (ts : List String) :
    (ts.map JVal.str).mapM asString = some ts := by
  have h := mapM_loop_map_some asString JVal.str id (fun a => rfl) ts []
  simpa [List.mapM] using h

theorem mapM_asString_lower (ts : List String) :
    (ts.map JVal.str).mapM (fun v => (asString v).map pyLower) =
      some (ts.map pyLower) := by
  have h := mapM_loop_map_some (fun v => (asString v).map pyLower) JVal.str
    pyLower (fun a => rfl) ts []
  simpa [List.mapM] using h

theorem pointStep_encode (p : PointEntry) :
    ∃ s, pointStep (encodePoint p) = some s := by
  rcases p with ⟨tags, cf⟩
  rcases tags with _ | ⟨t, ts⟩
  · exact ⟨none, by rcases cf with _ | c <;>
      simp [pointStep, encodePoint, lookupKey, pyTruthy]⟩
  · refine ⟨some (String.intercalate " " (t :: ts)), ?_⟩
    have hj : pyJoin (JVal.arr (JVal.str t :: List.map JVal.str ts)) =
        some (String.intercalate " " (t :: ts)) := by
      show (((t :: ts).map JVal.str).mapM asString).map
        (fun ss => String.intercalate " " ss) = _
      rw [mapM_asString_str]
      rfl
    rcases cf with _ | c <;>
      simp [pointStep, encodePoint, lookupKey, pyTruthy, hj]

theorem pointLoop_encode (ps : List PointEntry) :
    ∃ pAcc, pointLoop (ps.map encodePoint) = (pAcc, true) := by
  induction ps with
  | nil => exact ⟨[], rfl⟩
  | cons p ps ih =>
    obtain ⟨pAcc, ih⟩ := ih
    obtain ⟨s, hs⟩ := pointStep_encode p
    exact ⟨s.toList ++ pAcc, by simp [pointLoop, hs, ih]⟩

theorem rawParse_encode (ts : List String) :
    rawParse (.arr (ts.map JVal.str)) =
      some ((ts.map pyLower).dedup.insertionSort (· ≤ ·)) := by
  show (((ts.map JVal.str).mapM (fun v => (asString v).map pyLower)).map
    (fun ss => ss.dedup.insertionSort (· ≤ ·))) = _
  rw [mapM_asString_lower]
  rfl

theorem confStep_encodeEquip (e : EquipEntry) :
    confStep (encodeEquip e) = e.confidence.map JVal.num := by
  rcases e with ⟨hk, bc, cf⟩
  rcases hk with _ | k <;> rcases bc with _ | b <;> rcases cf with _ | c <;>
    simp [confStep, encodeEquip, lookupKey]

theorem confStep_encodePoint (p : PointEntry) :
    confStep (encodePoint p) = p.confidence.map JVal.num := by
  rcases p with ⟨tags, cf⟩
  rcases cf with _ | c <;> simp [confStep, encodePoint, lookupKey]

theorem confLoop_encodeEquip (es : List EquipEntry) :
    confLoop (es.map encodeEquip) =
      (es.filterMap (fun e => e.confidence)).map JVal.num := by
  rw [confLoop, List.filterMap_map, List.map_filterMap]
  exact List.filterMap_congr (fun e _ => confStep_encodeEquip e)

theorem confLoop_encodePoint (ps : List PointEntry) :
    confLoop (ps.map encodePoint) =
      (ps.filterMap (fun p => p.confidence)).map JVal.num := by
  rw [confLoop, List.filterMap_map, List.map_filterMap]
  exact List.filterMap_congr (fun p _ => confStep_encodePoint p)

theorem mapM_pyToNum_num (qs : List ℚ) :
    (qs.map JVal.num).mapM pyToNum = some qs := by
  have h := mapM_loop_map_some pyToNum JVal.num id (fun a => rfl) qs []
  simpa [List.mapM] using h

theorem meanGconf_num (qs : List ℚ) :
    meanGconf (qs.map JVal.num) =
      if qs = [] then 0 else qs.sum / (qs.length : ℚ) := by
  rw [meanGconf, mapM_pyToNum_num]
  exact if_congr (by simp [List.isEmpty_iff]) rfl rfl

theorem parseGround_encode_gconf (r : GroundResponse) :
    (parseGround (encodeResponse r)).gconf =
      if allConfidences r = [] then 0
      else (allConfidences r).sum / ((allConfidences r).length : ℚ) := by
  obtain ⟨eAcc, bAcc, hE⟩ := equipLoop_encode r.equipment_types
  obtain ⟨pAcc, hP⟩ := pointLoop_encode r.point_types
  have l1 : lookupKey "equipment_types"
      [("equipment_types", JVal.arr (r.equipment_types.map encodeEquip)),
       ("point_types", JVal.arr (r.point_types.map encodePoint)),
       ("raw_tags", JVal.arr (r.raw_tags.map JVal.str))] =
      some (JVal.arr (r.equipment_types.map encodeEquip)) := by
    simp [lookupKey]
  have l2 : lookupKey "point_types"
      [("equipment_types", JVal.arr (r.equipment_types.map encodeEquip)),
       ("point_types", JVal.arr (r.point_types.map encodePoint)),
       ("raw_tags", JVal.arr (r.raw_tags.map JVal.str))] =
      some (JVal.arr (r.point_types.map encodePoint)) := by
    simp [lookupKey]
  have l3 : lookupKey "raw_tags"
      [("equipment_types", JVal.arr (r.equipment_types.map encodeEquip)),
       ("point_types", JVal.arr (r.point_types.map encodePoint)),
       ("raw_tags", JVal.arr (r.raw_tags.map JVal.str))] =
      some (JVal.arr (r.raw_tags.map JVal.str)) := by
    simp [lookupKey]
  simp only [encodeResponse, parseGround]
  rw [l1, l2, l3]
  simp only [Option.getD_some, pyIter]
  rw [hE, hP, rawParse_encode]
  simp only []
  rw [confLoop_encodeEquip, confLoop_encodePoint, ← List.map_append, meanGconf_num,
    allConfidences]

/-- C9, counterexample: the code does not clamp or validate the per-concept
confidences, so a successful response carrying confidence `2.0` yields
`gconf = 2.0`, outside `[0.0, 1.0]` — the returned confidence does not
"always lie in the interval [0.0, 1.0]". -/
theorem ground_text_gconf_above_one :
    (ground_text "vav" 500 (.response 200 (some (encodeResponse
      ⟨[⟨some "vav", none, some 2⟩], [], []⟩)))).gconf = 2 ∧
    ¬ ((ground_text "vav" 500 (.response 200 (some (encodeResponse
      ⟨[⟨some "vav", none, some 2⟩], [], []⟩)))).gconf ≤ 1) := by
  have h1 : (ground_text "vav" 500 (.response 200 (some (encodeResponse
      ⟨[⟨some "vav", none, some 2⟩], [], []⟩)))).gconf = meanGconf [.num 2] := rfl
  have h2 : meanGconf [JVal.num 2] = 2 := by
    norm_num [meanGconf, pyToNum, List.mapM, List.mapM.loop]
  rw [h1, h2]
  norm_num

/-- C9, amended: on a successful (well-formed) grounding response, the
returned confidence is the arithmetic mean of all per-concept confidence
values present across both `equipment_types` and `point_types`, and `0.0`
when none are present; it lies in `[0.0, 1.0]` whenever every per-concept
confidence lies in `[0.0, 1.0]` (the code never clamps, so the bound is not
unconditional). -/
theorem ground_text_gconf_mean (r : GroundResponse) (text : String)
    (maxLen : Nat) (htext : (pyStrip (pyTruncate text maxLen)).data.isEmpty = false) :
    (ground_text text maxLen (.response 200 (some (encodeResponse r)))).gconf =
      (if allConfidences r = [] then 0
       else (allConfidences r).sum / ((allConfidences r).length : ℚ)) ∧
    ((∀ c ∈ allConfidences r, 0 ≤ c ∧ c ≤ 1) →
      0 ≤ (ground_text text maxLen (.response 200 (some (encodeResponse r)))).gconf ∧
      (ground_text text maxLen (.response 200 (some (encodeResponse r)))).gconf ≤ 1) := by
  have hg : ground_text text maxLen (.response 200 (some (encodeResponse r))) =
      parseGround (encodeResponse r) := by
    rw [ground_text.eq_def]
    simp [htext]
  refine ⟨by rw [hg]; exact parseGround_encode_gconf r, fun hc => ?_⟩
  rw [hg, parseGround_encode_gconf r]
  rcases hcs : allConfidences r with _ | ⟨c0, cs⟩
  · simp
  · rw [if_neg (by simp)]
    rw [hcs] at hc
    have hpos : (0 : ℚ) < ((c0 :: cs).length : ℚ) := by
      exact_mod_cast Nat.succ_pos cs.length
    constructor
    · exact div_nonneg (List.sum_nonneg fun x hx => (hc x hx).1) (le_of_lt hpos)
    · rw [div_le_one hpos]
      have hle := List.sum_le_card_nsmul (c0 :: cs) 1 (fun x hx => (hc x hx).2)
      simpa using hle

/-- Witness for C9 (amended): one equipment concept with confidence `1`
yields `gconf` within bounds. -/
theorem ground_text_gconf_mean_witness :
    (pyStrip (pyTruncate "vav" 500)).data.isEmpty = false ∧
    0 ≤ (ground_text "vav" 500 (.response 200 (some (encodeResponse
      ⟨[⟨some "vav", none, some 1⟩], [], []⟩)))).gconf ∧
    (ground_text "vav" 500 (.response 200 (some (encodeResponse
      ⟨[⟨some "vav", none, some 1⟩], [], []⟩)))).gconf ≤ 1 :=
  ⟨by decide,
   (ground_text_gconf_mean ⟨[⟨some "vav", none, some 1⟩], [], []⟩ "vav" 500
      (by decide)).2
     (fun c hc => by
       have hc1 : c = 1 := List.mem_singleton.mp hc
       rw [hc1]
       exact ⟨by norm_num, le_refl 1⟩)⟩

end GroundedRag
